import Mathlib

/-!
Verification development for the tinpot repository: a broker-mediated action
dispatch plane with a Go coordinator (two generations: the gin-based
coordinator in coordinator/main.go and the mux-based one in cmd/coordinator)
and a Go worker embedding Python (two generations: worker/ and cmd/worker).
The definitions below are shallow embeddings of the Go source; machine-level
details (float64 numbers from encoding/json) are modelled with rationals.
-/

set_option maxHeartbeats 1000000
set_option maxRecDepth 100000

/-- A JSON value as produced by Go encoding/json Unmarshal into interface:
strings, numbers (Go uses float64; modelled as rationals), booleans, null,
arrays and objects. Objects keep field order as a list. -/
inductive JsonVal where
  | str (s : String)
  | num (q : ℚ)
  | jbool (b : Bool)
  | null
  | arr (xs : List JsonVal)
  | obj (fs : List (String × JsonVal))
deriving Repr

/-- A JSON object body, as Go map of string to interface. -/
abbrev JsonObj := List (String × JsonVal)

namespace Tinpot

/-- tinpot/Actions.go: MqttAction, the announcement payload. -/
structure MqttAction where
  description : String
  group : String
  parameters : List String
  triggerTopic : String
deriving DecidableEq, Repr

/-- tinpot/Actions.go: ActionInfo. -/
structure ActionInfo where
  name : String
  description : String
  group : String
  parameters : List String
deriving DecidableEq, Repr

/-- tinpot/Actions.go: MqttLogEntry. -/
structure MqttLogEntry where
  timestamp : String
  level : String
  message : String
deriving DecidableEq, Repr

/-- tinpot/Actions.go: MqttResultResponse, decoded from the result topic. -/
structure MqttResultResponse where
  status : String
  result : JsonVal
  error : String
deriving Repr

/-- Result/log rendezvous topic for an execution id, as formatted by both
coordinators via "tinpot/exec/%s/result". -/
def resultTopicFor (execID : String) : String :=
  "tinpot/exec/" ++ execID ++ "/result"

/-- "tinpot/exec/%s/log". -/
def logTopicFor (execID : String) : String :=
  "tinpot/exec/" ++ execID ++ "/log"

/-- An observable MQTT client call made by the coordinator dispatch path.
`waited` records whether the code blocks on the token acknowledgment
(token.Wait) before proceeding. -/
inductive MqttOp where
  | subscribe (topic : String) (qos : Nat) (waited : Bool)
  | publish (topic : String) (qos : Nat) (retained : Bool)
  | unsubscribe (topics : List String)
deriving DecidableEq, Repr

end Tinpot

namespace CmdCoordinator

/-- cmd/coordinator models.go: StreamEvent, with Type "log" or "complete"
and a JSON payload. -/
structure StreamEvent where
  type : String
  data : JsonVal
deriving Repr

/-- Go runtime panics the channel operations of the execution registry can
raise. -/
inductive GoPanic where
  | sendOnClosedChannel
  | closeOfClosedChannel
deriving DecidableEq, Repr

/-- Model of the Go buffered channel inside ExecutionState
(cmd/coordinator main.go): a bounded FIFO plus a closed flag. -/
structure EventChan where
  buffer : List StreamEvent
  capacity : Nat
  closed : Bool
deriving Repr

/-- Outcome of the non-blocking select send used by both callbacks:
a send on a closed channel proceeds and panics (Go semantics, even inside
select); a full open channel takes the default branch; otherwise the event
is appended. -/
inductive SendOutcome where
  | sent (c : EventChan)
  | dropped
  | panicked
deriving Repr

/-- select with a single send case and a default branch. -/
def trySend (c : EventChan) (e : StreamEvent) : SendOutcome :=
  if c.closed then .panicked
  else if c.buffer.length < c.capacity then
    .sent { c with buffer := c.buffer ++ [e] }
  else .dropped

/-- close(state.EventChan): closing an already closed channel panics. -/
def closeChan (c : EventChan) : Except GoPanic EventChan :=
  if c.closed then .error .closeOfClosedChannel
  else .ok { c with closed := true }

/-- cmd/coordinator main.go registerExecution: a fresh ExecutionState with a
channel buffered to 1000 events. -/
def registerExecution : EventChan :=
  { buffer := [], capacity := 1000, closed := false }

/-- The JSON data of a log StreamEvent (tinpot.MqttLogEntry fields). -/
def logEventData (timestamp level message : String) : JsonVal :=
  .obj [("timestamp", .str timestamp), ("level", .str level),
        ("message", .str message)]

/-- A log StreamEvent as built by the async log callback. -/
def logEvent (timestamp level message : String) : StreamEvent :=
  { type := "log", data := logEventData timestamp level message }

/-- Go marshals a nil map as null; a non-nil map as an object. -/
def jsonOfOptObj : Option JsonObj → JsonVal
  | none => .null
  | some fs => .obj fs

/-- The complete StreamEvent data built by the async response callback:
state and successful always, result on success, error on failure. -/
def completeEventData (err : String) (res : Option JsonObj) : JsonVal :=
  .obj ([("state", .str (if err = "" then "SUCCESS" else "FAILURE")),
         ("successful", .jbool (err = ""))] ++
        (if err = "" then [("result", jsonOfOptObj res)]
         else [("error", .str err)]))

/-- The complete StreamEvent. -/
def completeEvent (err : String) (res : Option JsonObj) : StreamEvent :=
  { type := "complete", data := completeEventData err res }

/-- cmd/coordinator main.go executeAction logCallback: build a log event and
send it non-blockingly; on a full buffer a log line is emitted
("Dropped log for <id> due to full buffer") and the event is lost. A late
invocation on a closed channel panics (Go select send semantics). Returns
the new channel state and the drop log line, if any. -/
def logCallback (execID : String) (c : EventChan)
    (timestamp level message : String) :
    Except GoPanic (EventChan × Option String) :=
  match trySend c (logEvent timestamp level message) with
  | .sent c' => .ok (c', none)
  | .dropped => .ok (c, some ("Dropped log for " ++ execID ++
      " due to full buffer"))
  | .panicked => .error .sendOnClosedChannel

/-- cmd/coordinator main.go executeAction responseCallback: build the
complete event, send it with the same non-blocking select (so it is silently
dropped when the buffer is full), then close the channel. A second
invocation finds the channel closed and panics. -/
def responseCallback (c : EventChan) (err : String) (res : Option JsonObj) :
    Except GoPanic EventChan :=
  match trySend c (completeEvent err res) with
  | .sent c' => closeChan c'
  | .dropped => closeChan c
  | .panicked => .error .sendOnClosedChannel

/-- cmd/coordinator mqttactions.go mqttActionExecution.handleResponse:
decode the result message; on status "SUCCESS" pass an object result through
unchanged and wrap any other result as a map with key "value"; on any other
status invoke the callback with the error string and a nil map. Returns the
(error, result) pair handed to the response callback. -/
def handleResponse (res : Tinpot.MqttResultResponse) :
    String × Option JsonObj :=
  if res.status = "SUCCESS" then
    match res.result with
    | .obj fs => ("", some fs)
    | r => ("", some [("value", r)])
  else (res.error, none)

/-- cmd/coordinator mqttactions.go mqttActionExecution.trigger, viewed as the
sequence of MQTT client calls it issues: when a log callback is provided the
log topic is subscribed at QoS 0 without waiting on its token; the result
topic is subscribed at QoS 1 and its token is waited on; then the
ExecutionRequest is published to the action trigger topic, QoS 1,
non-retained; if that publish errors the two topics are unsubscribed. -/
def triggerTrace (execID : String) (hasLogs : Bool) (trigTopic : String)
    (publishOk : Bool) : List Tinpot.MqttOp :=
  (if hasLogs then [.subscribe (Tinpot.logTopicFor execID) 0 false] else []) ++
  [.subscribe (Tinpot.resultTopicFor execID) 1 true,
   .publish trigTopic 1 false] ++
  (if publishOk then []
   else [.unsubscribe [Tinpot.resultTopicFor execID,
                       Tinpot.logTopicFor execID]])

end CmdCoordinator

/-- An HTTP response: status code and JSON body. -/
structure HttpResp where
  status : Nat
  body : JsonVal
deriving Repr

/-- The 404 body written by both coordinators for an unknown action. -/
def notFoundResp (name : String) : HttpResp :=
  { status := 404,
    body := .obj [("detail", .str ("Action not found: " ++ name))] }

/-- The 400 body written by both coordinators for an undecodable body. -/
def badBodyResp : HttpResp :=
  { status := 400, body := .obj [("detail", .str "Invalid request body")] }

/-- The coordinator action catalog: the Go map name to MqttAction, modelled
as an association list with map semantics. -/
abbrev Catalog := List (String × Tinpot.MqttAction)

/-- Map read. -/
def catLookup (c : Catalog) (name : String) : Option Tinpot.MqttAction :=
  List.lookup name c

/-- Map write (upsert). -/
def catInsert (c : Catalog) (name : String) (act : Tinpot.MqttAction) :
    Catalog :=
  (name, act) :: c.filter (fun p => p.1 != name)

/-- Map delete. -/
def catRemove (c : Catalog) (name : String) : Catalog :=
  c.filter (fun p => p.1 != name)

/-- An announcement payload as the subscription callback sees it: empty
(retained clear), a payload json.Unmarshal rejects, or a decoded action. -/
inductive AnnPayload where
  | empty
  | malformed
  | action (act : Tinpot.MqttAction)
deriving DecidableEq, Repr

/-- Character-level split on the separator, mirroring Go strings.Split with
separator "/" (an executable replacement for String.splitOn, written by
structural recursion so that concrete topics evaluate). -/
def splitSlashChars : List Char → List (List Char)
  | [] => [[]]
  | c :: cs =>
    if c = '/' then [] :: splitSlashChars cs
    else
      match splitSlashChars cs with
      | [] => [[c]]
      | w :: ws => (c :: w) :: ws

/-- strings.Split(topic, "/"). -/
def splitOnSlash (s : String) : List String :=
  (splitSlashChars s.toList).map (fun cs => String.mk cs)

/-- The name slot of a well-formed announcement topic: both coordinators
split the topic on "/" and require exactly 3 parts, the third being the
action name. -/
def topicName (topic : String) : Option String :=
  let parts := splitOnSlash topic
  if parts.length = 3 then some (parts.getD 2 "") else none

namespace CmdCoordinator

/-- cmd/coordinator mqttactions.go mqttActionManager.onActionAnnounced
(identical logic to the announcement handler in coordinator/main.go):
skip topics that do not split into 3 parts; an empty payload deletes the
action; a payload that fails to unmarshal is skipped; otherwise upsert. -/
def onActionAnnounced (catalog : Catalog) (topic : String)
    (payload : AnnPayload) : Catalog :=
  let parts := splitOnSlash topic
  if parts.length = 3 then
    let actionName := parts.getD 2 ""
    match payload with
    | .empty => catRemove catalog actionName
    | .malformed => catalog
    | .action act => catInsert catalog actionName act
  else catalog

/-- Deliver a sequence of announcement messages to an initially empty
catalog. -/
def processAnnouncements (msgs : List (String × AnnPayload)) : Catalog :=
  msgs.foldl (fun cat m => onActionAnnounced cat m.1 m.2) []

/-- The retained payload of the most recent announcement addressed to
`name` within a message sequence, if any. -/
def latestAnnouncement (name : String) (msgs : List (String × AnnPayload)) :
    Option AnnPayload :=
  ((msgs.filter (fun m => topicName m.1 == some name)).getLast?).map (·.2)

/-- cmd/coordinator main.go executeAction, as a function from the catalog,
request data and the (possibly never happening) result-callback invocation
to the HTTP response and the trace of MQTT calls made by the trigger.
GetAction is a pure map read, so an unknown action produces no MQTT call.
In sync mode the handler blocks on wg.Wait() until the response callback
fires: if no result message ever arrives there is no deadline and no HTTP
response at all, modelled as `none`. In async mode the trigger runs in a
goroutine (hence with the log callback set) and the handler answers
"submitted" immediately. -/
def executeActionMuxRespond (catalog : Catalog) (name : String)
    (bodyOk : Bool) (execID : String)
    (syncArrival : Option (String × Option JsonObj)) (syncMode : Bool) :
    Option HttpResp × List Tinpot.MqttOp :=
  match catLookup catalog name with
  | none => (some (notFoundResp name), [])
  | some act =>
    if bodyOk = false then (some badBodyResp, [])
    else
      let ops := triggerTrace execID (!syncMode) act.triggerTopic true
      if syncMode then
        match syncArrival with
        | none => (none, ops)
        | some (err, res) =>
          (some { status := 200,
                  body := .obj [("execution_id", .str execID),
                                ("action_name", .str name),
                                ("status", .str (if err = "" then "SUCCESS"
                                                 else "FAILURE")),
                                ("result", jsonOfOptObj res)] }, ops)
      else
        (some { status := 200,
                body := .obj [("execution_id", .str execID),
                              ("action_name", .str name),
                              ("status", .str "submitted"),
                              ("stream_url",
                               .str ("/api/executions/" ++ execID ++
                                     "/stream"))] }, ops)

/-- The result of a GET stream request: an error response, or the sequence
of SSE data payloads delivered to a subscriber that drains the queue. -/
inductive StreamResult where
  | notFound (resp : HttpResp)
  | stream (events : List JsonVal)
deriving Repr

/-- The initial SSE payload sent immediately after the headers. -/
def connectedJson (execID : String) : JsonVal :=
  .obj [("type", .str "connected"), ("execution_id", .str execID)]

/-- The SSE rendering of a queued StreamEvent. -/
def streamEventJson (e : StreamEvent) : JsonVal :=
  .obj [("type", .str e.type), ("data", e.data)]

/-- cmd/coordinator main.go streamLogs: look the execution up in the
registry; 404 when absent; otherwise emit the connected payload first and
then drain the event channel. -/
def streamLogsMux (executions : List (String × EventChan)) (execID : String) :
    StreamResult :=
  match List.lookup execID executions with
  | none =>
    .notFound { status := 404,
                body := .obj [("detail", .str "Execution not found")] }
  | some c => .stream (connectedJson execID :: c.buffer.map streamEventJson)

end CmdCoordinator

namespace GinCoordinator

/-- coordinator/main.go executeAction: the MQTT calls made on the dispatch
path when the action exists and the body decodes: subscribe the result
topic at QoS 1 and wait on the token, publish the ExecutionRequest QoS 1
non-retained, and (deferred) unsubscribe the result topic when the handler
returns. The log topic is never touched here. -/
def ginDispatchOps (execID trigTopic : String) : List Tinpot.MqttOp :=
  [.subscribe (Tinpot.resultTopicFor execID) 1 true,
   .publish trigTopic 1 false,
   .unsubscribe [Tinpot.resultTopicFor execID]]

/-- coordinator/main.go: the sync-mode wait is a select between the result
channel and time.After(30 * time.Second). -/
def ginSyncTimeoutSeconds : Nat := 30

/-- coordinator/main.go executeAction as a function from catalog, request
data, publish success and the possible result arrival (within the
30-second select) to the HTTP response and MQTT trace. -/
def executeActionGinRespond (catalog : Catalog) (name : String)
    (bodyOk : Bool) (execID : String) (publishOk : Bool)
    (syncArrival : Option Tinpot.MqttResultResponse) (syncMode : Bool) :
    Option HttpResp × List Tinpot.MqttOp :=
  match catLookup catalog name with
  | none => (some (notFoundResp name), [])
  | some act =>
    if bodyOk = false then (some badBodyResp, [])
    else
      let ops := ginDispatchOps execID act.triggerTopic
      if publishOk = false then
        (some { status := 500,
                body := .obj [("detail",
                  .str "Failed to publish execution request")] }, ops)
      else if syncMode then
        match syncArrival with
        | some res =>
          (some { status := 200,
                  body := .obj [("execution_id", .str execID),
                                ("action_name", .str name),
                                ("status", .str res.status),
                                ("result", res.result)] }, ops)
        | none =>
          (some { status := 504,
                  body := .obj [("detail", .str "Execution timed out")] },
           ops)
      else
        (some { status := 200,
                body := .obj [("execution_id", .str execID),
                              ("action_name", .str name),
                              ("status", .str "submitted"),
                              ("stream_url",
                               .str ("/api/executions/" ++ execID ++
                                     "/stream"))] }, ops)

/-- coordinator/main.go streamLogs: there is no execution registry in the
gin coordinator; for every id it subscribes to the log and result topics,
writes the connected payload first and then streams broker messages. The
`live` argument is the rendered broker traffic that arrives before the
stream ends. -/
def streamLogsGin (execID : String) (live : List JsonVal) :
    CmdCoordinator.StreamResult :=
  .stream (CmdCoordinator.connectedJson execID :: live)

end GinCoordinator

/-- A value inside the embedded Python interpreter, as far as the worker
parameter and result marshalling can produce one. -/
inductive PyVal where
  | pyStr (s : String)
  | pyInt (n : Int)
  | pyFloat (q : ℚ)
  | pyBool (b : Bool)
  | pyNone
  | pyList (xs : List PyVal)
  | pyDict (fs : List (String × PyVal))
deriving Repr

namespace Worker

mutual

/-- fmt.Sprintf with the %v verb, as applied by the default branch of the
worker parameter switch to the remaining JSON shapes. A nil interface
renders as "<nil>"; slices render bracketed and space-separated; maps render
as map of k:v pairs (Go fmt prints map keys sorted; the model renders fields
in their given order, which no theorem below depends on). Numbers are
rendered approximately (Go prints float64 with the shortest decimal form). -/
def goSprintV : JsonVal → String
  | .str s => s
  | .num q => if q.den = 1 then toString q.num else toString q
  | .jbool b => cond b "true" "false"
  | .null => "<nil>"
  | .arr xs => "[" ++ goSprintVList xs ++ "]"
  | .obj fs => "map[" ++ goSprintVFields fs ++ "]"

def goSprintVList : List JsonVal → String
  | [] => ""
  | [v] => goSprintV v
  | v :: vs => goSprintV v ++ " " ++ goSprintVList vs

def goSprintVFields : List (String × JsonVal) → String
  | [] => ""
  | [(k, v)] => k ++ ":" ++ goSprintV v
  | (k, v) :: fs => k ++ ":" ++ goSprintV v ++ " " ++ goSprintVFields fs

end

/-- The parameter conversion switch, identical in worker main.go
(configure_python.sh, executeAction) and cmd/worker pyactions.go
(pyActionInfo.trigger): a Go string becomes a Python str; a float64 that
equals its int truncation becomes a Python int, any other float64 a Python
float; a bool becomes a Python bool; every other decoded JSON value —
null, arrays and objects — falls into the default branch and becomes
PyUnicode_FromString(fmt.Sprintf("%v", val)), i.e. a Python str. JSON
numbers are modelled as rationals and integer-valuedness as denominator 1
(float64 truncation overflow is not modelled). -/
def goParamToPy : JsonVal → PyVal
  | .str s => .pyStr s
  | .num q => if q.den = 1 then .pyInt q.num else .pyFloat q
  | .jbool b => .pyBool b
  | v => .pyStr (goSprintV v)

end Worker

namespace Spec

mutual

/-- The parameter conversion as the specification words it (section 4.2):
string to string, integer-valued number to integer, other number to float,
bool to bool, null to interpreter-null, arrays to interpreter lists and
objects to interpreter mappings. Stated for refinement comparison with
`Worker.goParamToPy`. -/
def specParamConversion : JsonVal → PyVal
  | .str s => .pyStr s
  | .num q => if q.den = 1 then .pyInt q.num else .pyFloat q
  | .jbool b => .pyBool b
  | .null => .pyNone
  | .arr xs => .pyList (specParamConversionList xs)
  | .obj fs => .pyDict (specParamConversionFields fs)

def specParamConversionList : List JsonVal → List PyVal
  | [] => []
  | v :: vs => specParamConversion v :: specParamConversionList vs

def specParamConversionFields :
    List (String × JsonVal) → List (String × PyVal)
  | [] => []
  | (k, v) :: fs => (k, specParamConversion v) :: specParamConversionFields fs

end

end Spec

namespace CmdWorker

/-- cmd/worker main.go triggerTopicForAction. -/
def triggerTopicForAction (actionName : String) : String :=
  "tinpot/actions/" ++ actionName ++ "/trigger"

/-- cmd/worker main.go announceTopicForAction. -/
def announceTopicForAction (actionName : String) : String :=
  "tinpot/actions/" ++ actionName

/-- cmd/worker main.go toMqttAction: the announcement payload published
retained at the announce topic for each discovered action. -/
def toMqttAction (act : Tinpot.ActionInfo) : Tinpot.MqttAction :=
  { description := act.description,
    group := act.group,
    parameters := act.parameters,
    triggerTopic := triggerTopicForAction act.name }

end CmdWorker

namespace OldWorker

/-- worker main.go (configure_python.sh) discoverActions: the TriggerTopic
stored in each discovered Action and marshalled into its retained
announcement is fmt.Sprintf("tinpot/ops/%s/run", name). -/
def discoveredTriggerTopic (name : String) : String :=
  "tinpot/ops/" ++ name ++ "/run"

end OldWorker

/-- The ordering property the specification demands of the dispatch path:
somewhere in the trace there is a subscription to `topic` at QoS 1 whose
acknowledgment is waited on, and it occurs strictly before the QoS 1
non-retained publish to `pubTopic`. -/
def subAckBeforePublish (tr : List Tinpot.MqttOp) (topic pubTopic : String) :
    Prop :=
  ∃ i j, i < j ∧ tr.get? i = some (.subscribe topic 1 true) ∧
    tr.get? j = some (.publish pubTopic 1 false)

namespace Fixtures

/-- A concrete log event, as enqueued by the async log callback. -/
def sampleLogEvent : CmdCoordinator.StreamEvent :=
  CmdCoordinator.logEvent "2026-01-01T00:00:00Z" "INFO" "working"

/-- The ExecutionState channel after 1000 buffered log events with no SSE
subscriber draining them: the buffer is at the capacity set by
registerExecution. -/
def fullChan : CmdCoordinator.EventChan :=
  { buffer := List.replicate 1000 sampleLogEvent,
    capacity := 1000, closed := false }

/-- The ExecutionState channel after the first result message has been
handled on a fresh execution. -/
def doneChan : CmdCoordinator.EventChan :=
  { buffer := [CmdCoordinator.completeEvent "" none],
    capacity := 1000, closed := true }

/-- A concrete catalog entry. -/
def act0 : Tinpot.MqttAction :=
  { description := "clean cache", group := "Maintenance",
    parameters := ["days"], triggerTopic := "tinpot/actions/clean_cache/trigger" }

/-- A second catalog entry, for announcement-replacement scenarios. -/
def act1 : Tinpot.MqttAction :=
  { description := "clean cache v2", group := "Maintenance",
    parameters := ["days", "dry_run"],
    triggerTopic := "tinpot/actions/clean_cache/trigger" }

/-- A concrete worker-side action description. -/
def info0 : Tinpot.ActionInfo :=
  { name := "clean_cache", description := "clean cache",
    group := "Maintenance", parameters := ["days"] }

/-- A concrete announcement sequence: announce `clean_cache` twice
(replacement) and announce then withdraw `health_check`. -/
def msgs0 : List (String × AnnPayload) :=
  [("tinpot/actions/clean_cache", .action act0),
   ("tinpot/actions/health_check", .action act1),
   ("tinpot/actions/clean_cache", .action act1),
   ("tinpot/actions/health_check", .empty)]

/-- A concrete successful result whose result field is a JSON object. -/
def resObj : Tinpot.MqttResultResponse :=
  { status := "SUCCESS",
    result := .obj [("files_deleted", .num 42)], error := "" }

/-- A concrete successful result whose result field is a bare number. -/
def resScalar : Tinpot.MqttResultResponse :=
  { status := "SUCCESS", result := .num 7, error := "" }

/-- A concrete failed result. -/
def resFail : Tinpot.MqttResultResponse :=
  { status := "FAILURE", result := .null, error := "Exception occurred" }

end Fixtures

/-!  Theorems.  -/

/-- C1: on a fresh execution the result handler enqueues exactly one
complete event, it is the last event before the queue is closed — but the
handler is not idempotent: a second result message for the same execution
id (QoS 1 redelivery) reaches a select-send on the already closed channel,
which is a Go runtime panic, not a silent drop. The ExecutionState fields
mu and Done that could guard this are never used. -/
theorem c1_result_handler_panics_on_duplicate :
    CmdCoordinator.responseCallback CmdCoordinator.registerExecution "" none
      = .ok Fixtures.doneChan ∧
    (Fixtures.doneChan.buffer.filter
        (fun e => e.type == "complete")).length = 1 ∧
    Fixtures.doneChan.buffer.getLast?
      = some (CmdCoordinator.completeEvent "" none) ∧
    Fixtures.doneChan.closed = true ∧
    CmdCoordinator.responseCallback Fixtures.doneChan "" none
      = .error .sendOnClosedChannel :=
  ⟨rfl, rfl, rfl, rfl, rfl⟩

/-- C2 counterexample: when the 1000-slot buffer is full at the moment the
result arrives (an execution whose log volume exceeded the capacity with no
subscriber draining), the complete event itself is dropped by the
non-blocking select and the queue is closed without it — no complete event
is ever delivered, contrary to the claim. -/
theorem c2_full_queue_drops_complete_event :
    CmdCoordinator.responseCallback Fixtures.fullChan ""
        (some [("ok", .jbool true)])
      = .ok { Fixtures.fullChan with closed := true } ∧
    Fixtures.fullChan.buffer.any (fun e => e.type == "complete") = false := by
  exact ⟨rfl, by decide⟩

/-- C2 amended: on a full open queue, excess log events are dropped with a
log line per drop, and the complete event is likewise silently dropped
before the queue is closed; the complete event is enqueued last and
delivered only when the queue still has free capacity when the result
arrives. -/
theorem c2_amended_enqueue_policy (c : CmdCoordinator.EventChan)
    (execID ts lvl msg err : String) (res : Option JsonObj)
    (hopen : c.closed = false) :
    (c.buffer.length < c.capacity →
      CmdCoordinator.responseCallback c err res =
        .ok { c with
              buffer := c.buffer ++ [CmdCoordinator.completeEvent err res],
              closed := true }) ∧
    (¬ c.buffer.length < c.capacity →
      CmdCoordinator.responseCallback c err res =
        .ok { c with closed := true }) ∧
    (¬ c.buffer.length < c.capacity →
      CmdCoordinator.logCallback execID c ts lvl msg =
        .ok (c, some ("Dropped log for " ++ execID ++
          " due to full buffer"))) ∧
    (c.buffer.length < c.capacity →
      CmdCoordinator.logCallback execID c ts lvl msg =
        .ok ({ c with
               buffer := c.buffer ++ [CmdCoordinator.logEvent ts lvl msg] },
             none)) := by
  refine ⟨?_, ?_, ?_, ?_⟩ <;> intro h <;>
    simp [CmdCoordinator.responseCallback, CmdCoordinator.logCallback,
          CmdCoordinator.trySend, CmdCoordinator.closeChan, hopen, h]

/-- Witness for the amended C2 theorem at concrete inputs: a fresh queue
delivers the complete event last and closes; a full queue drops a log event
with the drop log line. -/
theorem c2_amended_enqueue_policy_witness :
    CmdCoordinator.responseCallback CmdCoordinator.registerExecution
        "boom" none
      = .ok { CmdCoordinator.registerExecution with
              buffer := [CmdCoordinator.completeEvent "boom" none],
              closed := true } ∧
    CmdCoordinator.logCallback "e1" Fixtures.fullChan
        "2026-01-01T00:00:00Z" "INFO" "m"
      = .ok (Fixtures.fullChan,
             some "Dropped log for e1 due to full buffer") := by
  constructor
  · exact (c2_amended_enqueue_policy CmdCoordinator.registerExecution
      "e1" "t" "INFO" "m" "boom" none rfl).1 (by decide)
  · exact (c2_amended_enqueue_policy Fixtures.fullChan
      "e1" "2026-01-01T00:00:00Z" "INFO" "m" "x" none rfl).2.2.1
      (by simp [Fixtures.fullChan])

/-- C3 counterexample: in the dispatch trace of
cmd/coordinator mqttactions.go trigger, the log-topic subscription is made
at QoS 0 and its token is never waited on, so no acknowledged QoS 1
log-topic subscription precedes the trigger publish, contrary to the
claim. -/
theorem c3_log_subscribe_not_acked_before_publish :
    ¬ subAckBeforePublish
        (CmdCoordinator.triggerTrace "e1" true
          "tinpot/actions/clean_cache/trigger" true)
        (Tinpot.logTopicFor "e1") "tinpot/actions/clean_cache/trigger" := by
  rintro ⟨i, j, hij, hi, hj⟩
  have hmem := List.get?_mem hi
  revert hmem
  decide

/-- C3 amended: both coordinators subscribe to the result topic at QoS 1
and wait for its acknowledgment strictly before publishing the
ExecutionRequest; the log topic, by contrast, is subscribed (only when a
log callback is provided, i.e. async mode) at QoS 0 with no wait on its
token — in the gin coordinator the dispatch path does not subscribe to the
log topic at all. -/
theorem c3_amended_subscribe_before_publish (execID trigTopic : String) :
    subAckBeforePublish
      (CmdCoordinator.triggerTrace execID true trigTopic true)
      (Tinpot.resultTopicFor execID) trigTopic ∧
    subAckBeforePublish
      (CmdCoordinator.triggerTrace execID false trigTopic true)
      (Tinpot.resultTopicFor execID) trigTopic ∧
    (Tinpot.MqttOp.subscribe (Tinpot.logTopicFor execID) 0 false) ∈
      CmdCoordinator.triggerTrace execID true trigTopic true ∧
    subAckBeforePublish (GinCoordinator.ginDispatchOps execID trigTopic)
      (Tinpot.resultTopicFor execID) trigTopic := by
  refine ⟨⟨1, 2, by omega, rfl, rfl⟩, ⟨0, 1, by omega, rfl, rfl⟩,
    by simp [CmdCoordinator.triggerTrace], ⟨0, 1, by omega, rfl, rfl⟩⟩

/-- C4 counterexample: a JSON null parameter is not converted to
interpreter-null: the worker switch has no case for nil, arrays or maps, so
null falls into the default branch and reaches Python as the string
"<nil>". -/
theorem c4_null_marshalled_to_string_not_none :
    Worker.goParamToPy .null = .pyStr "<nil>" ∧
    Spec.specParamConversion .null = .pyNone ∧
    PyVal.pyStr "<nil>" ≠ PyVal.pyNone := by
  refine ⟨by simp [Worker.goParamToPy, Worker.goSprintV],
    by simp [Spec.specParamConversion], fun h => PyVal.noConfusion h⟩

/-- C4 amended: strings, integer-valued numbers, other numbers and booleans
convert as the claim states, but null, arrays and objects are all converted
to a Python string (the fmt %v rendering of the Go value) instead of
interpreter-null, list or mapping. -/
theorem c4_amended_parameter_marshalling (s : String) (q : ℚ) (b : Bool)
    (xs : List JsonVal) (fs : List (String × JsonVal)) :
    Worker.goParamToPy (.str s) = Spec.specParamConversion (.str s) ∧
    (q.den = 1 → Worker.goParamToPy (.num q) = .pyInt q.num) ∧
    (q.den ≠ 1 → Worker.goParamToPy (.num q) = .pyFloat q) ∧
    Worker.goParamToPy (.jbool b) = Spec.specParamConversion (.jbool b) ∧
    Worker.goParamToPy .null = .pyStr (Worker.goSprintV .null) ∧
    Worker.goParamToPy (.arr xs) = .pyStr (Worker.goSprintV (.arr xs)) ∧
    Worker.goParamToPy (.obj fs) = .pyStr (Worker.goSprintV (.obj fs)) ∧
    Worker.goParamToPy .null ≠ PyVal.pyNone ∧
    (∀ ys, Worker.goParamToPy (.arr xs) ≠ PyVal.pyList ys) ∧
    (∀ gs, Worker.goParamToPy (.obj fs) ≠ PyVal.pyDict gs) := by
  refine ⟨by simp [Worker.goParamToPy, Spec.specParamConversion],
    fun h => by simp [Worker.goParamToPy, h],
    fun h => by simp [Worker.goParamToPy, h],
    by simp [Worker.goParamToPy, Spec.specParamConversion],
    rfl, rfl, rfl,
    by simp [Worker.goParamToPy],
    fun ys => by simp [Worker.goParamToPy],
    fun gs => by simp [Worker.goParamToPy]⟩

/-- Witness for the amended C4 theorem: 5 converts to the Python integer 5
and 1/2 to the Python float 1/2. -/
theorem c4_amended_parameter_marshalling_witness :
    Worker.goParamToPy (.num 5) = .pyInt 5 ∧
    Worker.goParamToPy (.num (1/2)) = .pyFloat (1/2) := by
  exact ⟨(c4_amended_parameter_marshalling "s" 5 true [] []).2.1
      (by norm_num),
    (c4_amended_parameter_marshalling "s" (1/2) true [] []).2.2.1
      (by norm_num)⟩

/-- C5 counterexample: the cmd/coordinator sync path blocks on wg.Wait()
with no deadline — when no result message ever arrives there is no HTTP 504
and no response at all, contrary to the claimed 30-second deadline. -/
theorem c5_mux_sync_mode_has_no_timeout :
    (CmdCoordinator.executeActionMuxRespond [("clean_cache", Fixtures.act0)]
        "clean_cache" true "e1" none true).1 = none := rfl

/-- C5 amended: the gin coordinator waits on the result for at most the
30-second select deadline, answering 504 on expiry and 200 with
execution_id, action_name, status and result on arrival; the mux
coordinator has no deadline: it responds 200 once the result callback
fires and never responds otherwise. -/
theorem c5_amended_sync_mode_outcomes (catalog : Catalog)
    (name execID : String) (act : Tinpot.MqttAction)
    (res : Tinpot.MqttResultResponse) (err : String) (r : Option JsonObj)
    (h : catLookup catalog name = some act) :
    GinCoordinator.executeActionGinRespond catalog name true execID true
        none true
      = (some { status := 504,
                body := .obj [("detail", .str "Execution timed out")] },
         GinCoordinator.ginDispatchOps execID act.triggerTopic) ∧
    GinCoordinator.executeActionGinRespond catalog name true execID true
        (some res) true
      = (some { status := 200,
                body := .obj [("execution_id", .str execID),
                              ("action_name", .str name),
                              ("status", .str res.status),
                              ("result", res.result)] },
         GinCoordinator.ginDispatchOps execID act.triggerTopic) ∧
    GinCoordinator.ginSyncTimeoutSeconds = 30 ∧
    (CmdCoordinator.executeActionMuxRespond catalog name true execID
        none true).1 = none ∧
    CmdCoordinator.executeActionMuxRespond catalog name true execID
        (some (err, r)) true
      = (some { status := 200,
                body := .obj [("execution_id", .str execID),
                              ("action_name", .str name),
                              ("status", .str (if err = "" then "SUCCESS"
                                               else "FAILURE")),
                              ("result", CmdCoordinator.jsonOfOptObj r)] },
         CmdCoordinator.triggerTrace execID false act.triggerTopic true) := by
  refine ⟨?_, ?_, rfl, ?_, ?_⟩ <;>
    simp [GinCoordinator.executeActionGinRespond,
          CmdCoordinator.executeActionMuxRespond, h]

/-- Witness for the amended C5 theorem at a concrete one-action catalog:
timeout gives 504, a concrete result gives 200. -/
theorem c5_amended_sync_mode_outcomes_witness :
    GinCoordinator.executeActionGinRespond [("clean_cache", Fixtures.act0)]
        "clean_cache" true "e1" true none true
      = (some { status := 504,
                body := .obj [("detail", .str "Execution timed out")] },
         GinCoordinator.ginDispatchOps "e1" Fixtures.act0.triggerTopic) ∧
    (CmdCoordinator.executeActionMuxRespond [("clean_cache", Fixtures.act0)]
        "clean_cache" true "e1" none true).1 = none := by
  exact ⟨(c5_amended_sync_mode_outcomes [("clean_cache", Fixtures.act0)]
      "clean_cache" "e1" Fixtures.act0 Fixtures.resObj "" none rfl).1,
    (c5_amended_sync_mode_outcomes [("clean_cache", Fixtures.act0)]
      "clean_cache" "e1" Fixtures.act0 Fixtures.resObj "" none rfl).2.2.2.1⟩

/-- C6: in both coordinators, an execute or sync_execute request naming an
action absent from the catalog is answered 404 with body
detail = "Action not found: name" and the handler makes no MQTT call at
all (no publish, no subscription). -/
theorem c6_unknown_action_404_no_broker_traffic (catalog : Catalog)
    (name execID : String) (bodyOk publishOk : Bool)
    (arrG : Option Tinpot.MqttResultResponse)
    (arrM : Option (String × Option JsonObj)) (syncMode : Bool)
    (h : catLookup catalog name = none) :
    CmdCoordinator.executeActionMuxRespond catalog name bodyOk execID
        arrM syncMode
      = (some (notFoundResp name), []) ∧
    GinCoordinator.executeActionGinRespond catalog name bodyOk execID
        publishOk arrG syncMode
      = (some (notFoundResp name), []) ∧
    notFoundResp name
      = { status := 404,
          body := .obj [("detail",
            .str ("Action not found: " ++ name))] } := by
  refine ⟨?_, ?_, rfl⟩ <;>
    simp [CmdCoordinator.executeActionMuxRespond,
          GinCoordinator.executeActionGinRespond, h]

/-- Witness for C6: the empty catalog knows no action. -/
theorem c6_unknown_action_404_no_broker_traffic_witness :
    CmdCoordinator.executeActionMuxRespond [] "does_not_exist" true "e1"
        none false
      = (some (notFoundResp "does_not_exist"), []) := by
  exact (c6_unknown_action_404_no_broker_traffic [] "does_not_exist" "e1"
    true true none none false rfl).1

/-- C9 counterexample: the gin coordinator has no execution registry at
all — a stream request for an id with no ExecutionState is answered with a
200 SSE stream (connected event first), never with 404. -/
theorem c9_gin_stream_has_no_404 :
    GinCoordinator.streamLogsGin "no-such-id" []
      = .stream [CmdCoordinator.connectedJson "no-such-id"] ∧
    CmdCoordinator.StreamResult.stream
        [CmdCoordinator.connectedJson "no-such-id"]
      ≠ CmdCoordinator.StreamResult.notFound
          { status := 404,
            body := .obj [("detail", .str "Execution not found")] } :=
  ⟨rfl, fun h => CmdCoordinator.StreamResult.noConfusion h⟩

/-- C9 amended: in the mux coordinator a stream request for an id with no
registered ExecutionState is answered 404 with detail
"Execution not found", and when the state exists the stream begins with the
connected event before any queued events; the gin coordinator has no
registry and answers every id with a stream that begins with the connected
event. -/
theorem c9_amended_stream_behavior
    (executions : List (String × CmdCoordinator.EventChan))
    (execID : String) (c : CmdCoordinator.EventChan) (live : List JsonVal) :
    (List.lookup execID executions = none →
      CmdCoordinator.streamLogsMux executions execID
        = .notFound { status := 404,
                      body := .obj [("detail",
                        .str "Execution not found")] }) ∧
    (List.lookup execID executions = some c →
      CmdCoordinator.streamLogsMux executions execID
        = .stream (CmdCoordinator.connectedJson execID ::
            c.buffer.map CmdCoordinator.streamEventJson)) ∧
    GinCoordinator.streamLogsGin execID live
      = .stream (CmdCoordinator.connectedJson execID :: live) :=
  ⟨fun h => by simp [CmdCoordinator.streamLogsMux, h],
   fun h => by simp [CmdCoordinator.streamLogsMux, h], rfl⟩

/-- Witness for the amended C9 theorem on a one-entry registry: an unknown
id gets 404, the known id gets the connected event followed by the queued
complete event. -/
theorem c9_amended_stream_behavior_witness :
    CmdCoordinator.streamLogsMux [("e1", Fixtures.doneChan)] "e2"
      = .notFound { status := 404,
                    body := .obj [("detail",
                      .str "Execution not found")] } ∧
    CmdCoordinator.streamLogsMux [("e1", Fixtures.doneChan)] "e1"
      = .stream (CmdCoordinator.connectedJson "e1" ::
          Fixtures.doneChan.buffer.map CmdCoordinator.streamEventJson) := by
  exact ⟨(c9_amended_stream_behavior [("e1", Fixtures.doneChan)] "e2"
      Fixtures.doneChan []).1 rfl,
    (c9_amended_stream_behavior [("e1", Fixtures.doneChan)] "e1"
      Fixtures.doneChan []).2.1 rfl⟩

/-- C10: the result handler of cmd/coordinator passes a SUCCESS object
result through unchanged, wraps any other SUCCESS result as a map under the
key "value", and on any non-SUCCESS status hands the callback the error
string and a nil map. -/
theorem c10_handle_response_wrapping (res : Tinpot.MqttResultResponse)
    (fs : JsonObj) :
    (res.status = "SUCCESS" → res.result = .obj fs →
      CmdCoordinator.handleResponse res = ("", some fs)) ∧
    (res.status = "SUCCESS" → (∀ gs, res.result ≠ .obj gs) →
      CmdCoordinator.handleResponse res
        = ("", some [("value", res.result)])) ∧
    (res.status ≠ "SUCCESS" →
      CmdCoordinator.handleResponse res = (res.error, none)) := by
  refine ⟨fun h hr => ?_, fun h hno => ?_, fun h => ?_⟩
  · simp [CmdCoordinator.handleResponse, h, hr]
  · cases hr : res.result <;>
      first
        | exact absurd hr (hno _)
        | simp [CmdCoordinator.handleResponse, h, hr]
  · simp [CmdCoordinator.handleResponse, h]

/-- Witness for C10 at concrete results: an object result passes through,
a scalar result is wrapped, a failure yields the error and nil. -/
theorem c10_handle_response_wrapping_witness :
    CmdCoordinator.handleResponse Fixtures.resObj
      = ("", some [("files_deleted", .num 42)]) ∧
    CmdCoordinator.handleResponse Fixtures.resScalar
      = ("", some [("value", .num 7)]) ∧
    CmdCoordinator.handleResponse Fixtures.resFail
      = ("Exception occurred", none) := by
  exact ⟨(c10_handle_response_wrapping Fixtures.resObj
      [("files_deleted", .num 42)]).1 rfl rfl,
    (c10_handle_response_wrapping Fixtures.resScalar []).2.1 rfl
      (fun gs h => JsonVal.noConfusion h),
    (c10_handle_response_wrapping Fixtures.resFail []).2.2 (by decide)⟩

theorem lookup_filter_ne {c : Catalog} {m n : String} (h : m ≠ n) :
    List.lookup m (c.filter (fun p => p.1 != n)) = List.lookup m c := by
  induction c with
  | nil => rfl
  | cons kv t ih =>
    obtain ⟨k, v⟩ := kv
    by_cases hk : k = n
    · subst hk
      have hm : (m == k) = false := beq_eq_false_iff_ne.mpr h
      simp [List.filter_cons, List.lookup, hm, ih]
    · have hkn : (k != n) = true := bne_iff_ne.mpr hk
      by_cases hm : m = k
      · subst hm
        simp [List.filter_cons, hkn, List.lookup]
      · have hmk : (m == k) = false := beq_eq_false_iff_ne.mpr hm
        simp [List.filter_cons, hkn, List.lookup, hmk, ih]

theorem lookup_filter_self {c : Catalog} {n : String} :
    List.lookup n (c.filter (fun p => p.1 != n)) = none := by
  induction c with
  | nil => rfl
  | cons kv t ih =>
    obtain ⟨k, v⟩ := kv
    by_cases hk : k = n
    · subst hk; simp [List.filter_cons, ih]
    · have hkn : (k != n) = true := bne_iff_ne.mpr hk
      have hnk : (n == k) = false := beq_eq_false_iff_ne.mpr (Ne.symm hk)
      simp [List.filter_cons, hkn, List.lookup, hnk, ih]

theorem catLookup_catInsert_self (c : Catalog) (n : String)
    (a : Tinpot.MqttAction) : catLookup (catInsert c n a) n = some a := by
  simp [catLookup, catInsert, List.lookup]

theorem catLookup_catInsert_ne (c : Catalog) {m n : String}
    (a : Tinpot.MqttAction) (h : m ≠ n) :
    catLookup (catInsert c n a) m = catLookup c m := by
  have hmn : (m == n) = false := beq_eq_false_iff_ne.mpr h
  simp [catLookup, catInsert, List.lookup, hmn, lookup_filter_ne h]

theorem catLookup_catRemove_self (c : Catalog) (n : String) :
    catLookup (catRemove c n) n = none := by
  simp [catLookup, catRemove, lookup_filter_self]

theorem catLookup_catRemove_ne (c : Catalog) {m n : String} (h : m ≠ n) :
    catLookup (catRemove c n) m = catLookup c m := by
  simp [catLookup, catRemove, lookup_filter_ne h]

theorem onActionAnnounced_of_topicName {cat : Catalog} {t name : String}
    {p : AnnPayload} (h : topicName t = some name) :
    CmdCoordinator.onActionAnnounced cat t p =
      match p with
      | .empty => catRemove cat name
      | .malformed => cat
      | .action a => catInsert cat name a := by
  simp only [topicName] at h
  split at h
  · rename_i h3
    have hname := Option.some.inj h
    subst hname
    simp only [CmdCoordinator.onActionAnnounced, h3, if_true]
  · exact absurd h (by simp)

theorem onActionAnnounced_of_topicName_none {cat : Catalog} {t : String}
    {p : AnnPayload} (h : topicName t = none) :
    CmdCoordinator.onActionAnnounced cat t p = cat := by
  simp only [topicName] at h
  simp only [CmdCoordinator.onActionAnnounced]
  split at h
  · exact absurd h (by simp)
  · rename_i h3
    simp [h3]

theorem lookup_onActionAnnounced_other {cat : Catalog} {t name : String}
    {p : AnnPayload} (h : topicName t ≠ some name) :
    catLookup (CmdCoordinator.onActionAnnounced cat t p) name =
      catLookup cat name := by
  cases htn : topicName t with
  | none => rw [onActionAnnounced_of_topicName_none htn]
  | some other =>
    have hne : name ≠ other := by
      intro e
      exact h (by rw [e, htn])
    rw [onActionAnnounced_of_topicName htn]
    cases p with
    | empty => exact catLookup_catRemove_ne cat hne
    | malformed => rfl
    | action a => exact catLookup_catInsert_ne cat a hne

theorem latestAnnouncement_append_one (name t : String) (p : AnnPayload)
    (msgs : List (String × AnnPayload)) :
    CmdCoordinator.latestAnnouncement name (msgs ++ [(t, p)]) =
      if topicName t = some name then some p
      else CmdCoordinator.latestAnnouncement name msgs := by
  unfold CmdCoordinator.latestAnnouncement
  rw [List.filter_append]
  by_cases h : topicName t = some name
  · have hb : (topicName t == some name) = true := beq_iff_eq.mpr h
    simp [List.filter_cons, hb, h, List.getLast?_concat]
  · have hb : (topicName t == some name) = false := beq_eq_false_iff_ne.mpr h
    simp [List.filter_cons, hb, h]

theorem ann_fold_lookup (msgs : List (String × AnnPayload)) :
    ∀ (cat : Catalog) (name : String),
      (CmdCoordinator.latestAnnouncement name msgs = none →
        catLookup (msgs.foldl
            (fun c m => CmdCoordinator.onActionAnnounced c m.1 m.2) cat) name
          = catLookup cat name) ∧
      (CmdCoordinator.latestAnnouncement name msgs = some .empty →
        catLookup (msgs.foldl
            (fun c m => CmdCoordinator.onActionAnnounced c m.1 m.2) cat) name
          = none) ∧
      (∀ a, CmdCoordinator.latestAnnouncement name msgs = some (.action a) →
        catLookup (msgs.foldl
            (fun c m => CmdCoordinator.onActionAnnounced c m.1 m.2) cat) name
          = some a) := by
  induction msgs using List.reverseRecOn with
  | nil =>
    intro cat name
    refine ⟨fun _ => rfl, fun h => ?_, fun a h => ?_⟩ <;>
      simp [CmdCoordinator.latestAnnouncement] at h
  | append_singleton msgs m ih =>
    intro cat name
    obtain ⟨t, p⟩ := m
    rw [List.foldl_append]
    simp only [List.foldl_cons, List.foldl_nil]
    rw [latestAnnouncement_append_one]
    by_cases h : topicName t = some name
    · rw [if_pos h, onActionAnnounced_of_topicName h]
      cases p with
      | empty =>
        refine ⟨fun hc => ?_, fun _ => ?_, fun a hc => ?_⟩
        · exact absurd hc (by simp)
        · exact catLookup_catRemove_self _ name
        · exact absurd (Option.some.inj hc) (by intro e; cases e)
      | malformed =>
        refine ⟨fun hc => ?_, fun hc => ?_, fun a hc => ?_⟩
        · exact absurd hc (by simp)
        · exact absurd (Option.some.inj hc) (by intro e; cases e)
        · exact absurd (Option.some.inj hc) (by intro e; cases e)
      | action a' =>
        refine ⟨fun hc => ?_, fun hc => ?_, fun a hc => ?_⟩
        · exact absurd hc (by simp)
        · exact absurd (Option.some.inj hc) (by intro e; cases e)
        · have := Option.some.inj hc
          have ha : a' = a := by cases this; rfl
          subst ha
          exact catLookup_catInsert_self _ name a'
    · rw [if_neg h, lookup_onActionAnnounced_other h]
      exact ih cat name

/-- C7: the catalog mirrors retained broker state. Processing an
announcement with an empty payload removes the name from the catalog and a
decoded non-empty payload upserts it; and over any delivered message
sequence, the lookup of a name equals the payload of the most recent
announcement addressed to it — the decoded action after an upsert, nothing
after a withdrawal, and nothing when the name was never announced. -/
theorem c7_catalog_mirrors_latest_announcement
    (cat : Catalog) (t name : String) (a : Tinpot.MqttAction)
    (msgs : List (String × AnnPayload))
    (h : topicName t = some name) :
    catLookup (CmdCoordinator.onActionAnnounced cat t .empty) name
      = none ∧
    catLookup (CmdCoordinator.onActionAnnounced cat t (.action a)) name
      = some a ∧
    (CmdCoordinator.latestAnnouncement name msgs = some (.action a) →
      catLookup (CmdCoordinator.processAnnouncements msgs) name = some a) ∧
    (CmdCoordinator.latestAnnouncement name msgs = some .empty →
      catLookup (CmdCoordinator.processAnnouncements msgs) name = none) ∧
    (CmdCoordinator.latestAnnouncement name msgs = none →
      catLookup (CmdCoordinator.processAnnouncements msgs) name = none) := by
  refine ⟨?_, ?_, ?_, ?_, ?_⟩
  · rw [onActionAnnounced_of_topicName h]
    exact catLookup_catRemove_self cat name
  · rw [onActionAnnounced_of_topicName h]
    exact catLookup_catInsert_self cat name a
  · exact fun hl => (ann_fold_lookup msgs [] name).2.2 a hl
  · exact fun hl => (ann_fold_lookup msgs [] name).2.1 hl
  · exact fun hl => (ann_fold_lookup msgs [] name).1 hl

/-- Witness for C7 on a concrete announcement sequence: clean_cache is
announced then replaced (lookup yields the replacement) and health_check is
announced then withdrawn (lookup yields nothing). -/
theorem c7_catalog_mirrors_latest_announcement_witness :
    catLookup (CmdCoordinator.processAnnouncements Fixtures.msgs0)
        "clean_cache" = some Fixtures.act1 ∧
    catLookup (CmdCoordinator.processAnnouncements Fixtures.msgs0)
        "health_check" = none := by
  exact ⟨(c7_catalog_mirrors_latest_announcement []
      "tinpot/actions/clean_cache" "clean_cache" Fixtures.act1
      Fixtures.msgs0 rfl).2.2.1 (by decide),
    (c7_catalog_mirrors_latest_announcement []
      "tinpot/actions/health_check" "health_check" Fixtures.act1
      Fixtures.msgs0 rfl).2.2.2.1 (by decide)⟩

/-- C8 counterexample: the legacy worker (worker/main.go) does not follow
the claimed convention — discoverActions stores, and the announcement
marshals, the trigger topic tinpot/ops/clean_cache/run for the action
clean_cache, not tinpot/actions/clean_cache/trigger. -/
theorem c8_old_worker_announces_ops_topic :
    OldWorker.discoveredTriggerTopic "clean_cache"
      = "tinpot/ops/clean_cache/run" ∧
    OldWorker.discoveredTriggerTopic "clean_cache"
      ≠ CmdWorker.triggerTopicForAction "clean_cache" :=
  ⟨rfl, by decide⟩

/-- C8 amended: the cmd/worker announces trigger_topic
tinpot/actions/name/trigger; once that announcement is processed the
coordinator catalog carries it, and the dispatch trace publishes the
ExecutionRequest to exactly that topic at QoS 1 non-retained. The legacy
worker instead announces tinpot/ops/name/run, and the gin coordinator
publishes non-retained to whatever topic was announced. -/
theorem c8_amended_trigger_topics (a : Tinpot.ActionInfo)
    (execID name : String)
    (h : topicName (CmdWorker.announceTopicForAction a.name) = some a.name) :
    (CmdWorker.toMqttAction a).triggerTopic
      = "tinpot/actions/" ++ a.name ++ "/trigger" ∧
    catLookup (CmdCoordinator.onActionAnnounced []
        (CmdWorker.announceTopicForAction a.name)
        (.action (CmdWorker.toMqttAction a))) a.name
      = some (CmdWorker.toMqttAction a) ∧
    (Tinpot.MqttOp.publish ("tinpot/actions/" ++ a.name ++ "/trigger")
        1 false) ∈
      CmdCoordinator.triggerTrace execID true
        (CmdWorker.toMqttAction a).triggerTopic true ∧
    OldWorker.discoveredTriggerTopic name
      = "tinpot/ops/" ++ name ++ "/run" ∧
    (Tinpot.MqttOp.publish ("tinpot/ops/" ++ name ++ "/run") 1 false) ∈
      GinCoordinator.ginDispatchOps execID
        (OldWorker.discoveredTriggerTopic name) := by
  refine ⟨rfl, ?_, ?_, rfl, ?_⟩
  · rw [onActionAnnounced_of_topicName h]
    exact catLookup_catInsert_self [] a.name (CmdWorker.toMqttAction a)
  · simp [CmdCoordinator.triggerTrace, CmdWorker.toMqttAction,
      CmdWorker.triggerTopicForAction]
  · simp [GinCoordinator.ginDispatchOps, OldWorker.discoveredTriggerTopic]

/-- Witness for the amended C8 theorem at the concrete action clean_cache:
the announced action lands in the catalog under its name, and the trigger
trace publishes to the announced convention topic. -/
theorem c8_amended_trigger_topics_witness :
    catLookup (CmdCoordinator.onActionAnnounced []
        (CmdWorker.announceTopicForAction Fixtures.info0.name)
        (.action (CmdWorker.toMqttAction Fixtures.info0)))
        Fixtures.info0.name
      = some (CmdWorker.toMqttAction Fixtures.info0) ∧
    (Tinpot.MqttOp.publish
        ("tinpot/actions/" ++ Fixtures.info0.name ++ "/trigger") 1 false) ∈
      CmdCoordinator.triggerTrace "e1" true
        (CmdWorker.toMqttAction Fixtures.info0).triggerTopic true := by
  exact ⟨(c8_amended_trigger_topics Fixtures.info0 "e1" "x" rfl).2.1,
    (c8_amended_trigger_topics Fixtures.info0 "e1" "x" rfl).2.2.1⟩
